import Mathlib

/-!
Verification of the pcie-sim transfer simulation engine.

This file gives a shallow embedding of the statistics aggregation, request
validation, timing model, buffer effects, device-open semantics and the
descriptor ring buffer of the pcie-sim repository, translated from:
  src/kernel/dma.c, src/kernel/ringbuffer.c, src/kernel/common.h,
  src/sim/linux_sim.c, src/sim/windows_sim.c, src/lib/types.h.
Machine integers (u64 / u32 in C) are modelled as Nat with explicit
reduction modulo 2^64 / 2^32 wherever the C arithmetic can wrap.
-/

namespace PcieSim

/-- u64 wrap-around arithmetic: value reduced modulo 2^64. -/
def w64 (x : Nat) : Nat := x % 2 ^ 64

/-- u32 wrap-around arithmetic: value reduced modulo 2^32. -/
def w32 (x : Nat) : Nat := x % 2 ^ 32

/-- u64 subtraction `a - b` as C computes it (wrapping); for `b ≤ a < 2^64`
it coincides with natural subtraction. -/
def w64sub (a b : Nat) : Nat := (2 ^ 64 + a - b % 2 ^ 64) % 2 ^ 64

theorem w64sub_eq_sub (a b : Nat) (hba : b ≤ a) (ha : a < 2 ^ 64) :
    w64sub a b = a - b := by
  unfold w64sub
  have hb : b < 2 ^ 64 := lt_of_le_of_lt hba ha
  rw [Nat.mod_eq_of_lt hb]
  have h1 : 2 ^ 64 + a - b = 2 ^ 64 + (a - b) := by omega
  rw [h1, Nat.add_mod_left, Nat.mod_eq_of_lt (by omega)]

/-- Device statistics, `struct pcie_sim_stats` (src/lib/types.h lines 56-63,
src/kernel/common.h lines 62-69): six u64 fields, no per-scenario error
counters exist in the structure. -/
structure Stats where
  total_transfers : Nat
  total_bytes : Nat
  total_errors : Nat
  avg_latency_ns : Nat
  min_latency_ns : Nat
  max_latency_ns : Nat
deriving Repr, DecidableEq

/-- Zero-initialized statistics (kzalloc / memset 0 in the kernel backend and
Linux simulation backend). -/
def zeroStats : Stats :=
  { total_transfers := 0, total_bytes := 0, total_errors := 0
    avg_latency_ns := 0, min_latency_ns := 0, max_latency_ns := 0 }

/-- Initial statistics of the Windows simulation backend: zeroed except
`min_latency_ns = UINT64_MAX` (src/sim/windows_sim.c lines 78-79). -/
def windowsInitStats : Stats := { zeroStats with min_latency_ns := 2 ^ 64 - 1 }

/-- Kernel statistics update `update_transfer_stats`
(src/kernel/dma.c lines 64-87): on success bump counters, update min (with a
0 sentinel), max, and the running average `(avg + latency) / 2`; on failure
increment only `total_errors`. -/
def update_transfer_stats (s : Stats) (size latency_ns : Nat) (success : Bool) :
    Stats :=
  if success then
    { total_transfers := w64 (s.total_transfers + 1)
      total_bytes := w64 (s.total_bytes + size)
      total_errors := s.total_errors
      min_latency_ns :=
        if s.min_latency_ns = 0 ∨ latency_ns < s.min_latency_ns then latency_ns
        else s.min_latency_ns
      max_latency_ns :=
        if latency_ns > s.max_latency_ns then latency_ns else s.max_latency_ns
      avg_latency_ns := w64 (s.avg_latency_ns + latency_ns) / 2 }
  else
    { s with total_errors := w64 (s.total_errors + 1) }

/-- Linux simulation statistics update (src/sim/linux_sim.c lines 197-215):
counters incremented, then on the first transfer avg/min/max are all set to
the current latency; afterwards `avg = (avg + latency) / 2` with min/max
comparisons. -/
def linuxStatsUpdate (s : Stats) (size latency : Nat) : Stats :=
  if w64 (s.total_transfers + 1) = 1 then
    { total_transfers := w64 (s.total_transfers + 1)
      total_bytes := w64 (s.total_bytes + size)
      total_errors := s.total_errors
      avg_latency_ns := latency, min_latency_ns := latency
      max_latency_ns := latency }
  else
    { total_transfers := w64 (s.total_transfers + 1)
      total_bytes := w64 (s.total_bytes + size)
      total_errors := s.total_errors
      avg_latency_ns := w64 (s.avg_latency_ns + latency) / 2
      min_latency_ns :=
        if latency < s.min_latency_ns then latency else s.min_latency_ns
      max_latency_ns :=
        if latency > s.max_latency_ns then latency else s.max_latency_ns }

/-- Windows simulation statistics update (src/sim/windows_sim.c lines
261-277): counters incremented, min/max compared against the new latency, and
the average maintained as a cumulative integer mean
`avg = (avg * (n - 1) + latency) / n` with `n` the new transfer count. -/
def windowsStatsUpdate (s : Stats) (size latency : Nat) : Stats :=
  { total_transfers := w64 (s.total_transfers + 1)
    total_bytes := w64 (s.total_bytes + size)
    total_errors := s.total_errors
    min_latency_ns :=
      if latency < s.min_latency_ns then latency else s.min_latency_ns
    max_latency_ns :=
      if latency > s.max_latency_ns then latency else s.max_latency_ns
    avg_latency_ns :=
      if w64 (s.total_transfers + 1) = 1 then latency
      else w64 (w64 (s.avg_latency_ns * (w64 (s.total_transfers + 1) - 1))
        + latency) / w64 (s.total_transfers + 1) }

/-- Fold a sequence of successful transfers `(size, latency)` through the
kernel statistics aggregator, starting from freshly zeroed statistics. -/
def runKernelStats (ts : List (Nat × Nat)) : Stats :=
  ts.foldl (fun s p => update_transfer_stats s p.1 p.2 true) zeroStats

/-- Fold a sequence of successful transfers through the Linux simulation
statistics aggregator from freshly zeroed statistics. -/
def runLinuxStats (ts : List (Nat × Nat)) : Stats :=
  ts.foldl (fun s p => linuxStatsUpdate s p.1 p.2) zeroStats

/-- Fold a sequence of successful transfers through the Windows simulation
statistics aggregator from its initial statistics. -/
def runWindowsStats (ts : List (Nat × Nat)) : Stats :=
  ts.foldl (fun s p => windowsStatsUpdate s p.1 p.2) windowsInitStats

/-- Modelled from the spec: the running-average policy of §4.4 — the first
sample is the average; every subsequent sample sets
`avg = (avg + latency) / 2` (u64 integer arithmetic). -/
def specRunningAvg (lats : List Nat) : Nat :=
  match lats with
  | [] => 0
  | l :: rest => rest.foldl (fun a x => w64 (a + x) / 2) l

/-- The kernel backend's actual average recurrence: `avg = (avg + latency)/2`
applied from an initial average of 0, with no first-sample special case. -/
def kernelAvgPolicy (lats : List Nat) : Nat :=
  lats.foldl (fun a x => w64 (a + x) / 2) 0

/-- The Windows backend's actual average recurrence: a cumulative integer
mean, tracking the number of samples seen. -/
def cumulativeAvg (lats : List Nat) : Nat :=
  (lats.foldl
    (fun (p : Nat × Nat) l =>
      let n := p.1 + 1
      (n, if n = 1 then l else w64 (w64 (p.2 * (n - 1)) + l) / n))
    (0, 0)).2

/-! ### Request validation and the transfer paths -/

/-- Kernel request validation `validate_transfer_request`
(src/kernel/dma.c lines 30-59): null buffer, `size < MIN_TRANSFER_SIZE (= 1)`,
`size > MAX_TRANSFER_SIZE (= 1024*1024)`, or `direction > 1` give `-EINVAL`
(-22); otherwise 0. -/
def validate_transfer_request (bufferNull : Bool) (size direction : Nat) :
    Int :=
  if bufferNull then -22
  else if size < 1 ∨ size > 1024 * 1024 then -22
  else if direction > 1 then -22
  else 0

/-- Kernel transfer `pcie_sim_dma_transfer` (src/kernel/dma.c lines 113-188),
statistics effect: on a validation, allocation or copy failure the function
calls `update_transfer_stats(dev, req, 0, false)` and returns the error; on
success it records the measured latency with
`update_transfer_stats(dev, req, latency_ns, true)`.  The measured latency
and the environment failures (kzalloc, copy_from_user/copy_to_user) are
parameters. -/
def pcie_sim_dma_transfer (s : Stats) (bufferNull : Bool)
    (size direction : Nat) (allocFail copyFail : Bool) (latency_ns : Nat) :
    Int × Stats :=
  let v := validate_transfer_request bufferNull size direction
  if v ≠ 0 then (v, update_transfer_stats s size 0 false)
  else if allocFail then (-12, update_transfer_stats s size 0 false)
  else if copyFail then (-14, update_transfer_stats s size 0 false)
  else (0, update_transfer_stats s size latency_ns true)

/-- Linux simulation transfer `pcie_sim_transfer_linux`
(src/sim/linux_sim.c lines 165-221), statistics effect: the only parameter
check is `!handle || !buffer || size == 0 || handle->device_id >= MAX_DEVICES`
(returning `PCIE_SIM_ERROR_PARAM = -2` without touching statistics); direction
and transfer size are otherwise unrestricted, and on success the measured
latency is folded into the statistics. -/
def pcie_sim_transfer_linux (s : Stats) (handleNull bufferNull : Bool)
    (size direction device_id : Nat) (latency : Nat) : Int × Stats :=
  if handleNull ∨ bufferNull ∨ size = 0 ∨ device_id ≥ 8 then (-2, s)
  else (0, linuxStatsUpdate s size latency)

/-- Windows simulation transfer `pcie_sim_transfer_impl`
(src/sim/windows_sim.c lines 217-284), statistics effect: parameter guard
`!handle || !buffer || size == 0 || size > 1024*1024` returns
`PCIE_SIM_ERROR_PARAM = -2`; out-of-range device id returns -2; inactive
device returns `PCIE_SIM_ERROR_DEVICE = -1`; a mutex timeout returns
`PCIE_SIM_ERROR_TIMEOUT = -4`; all without touching statistics.  Direction is
not validated.  On success the measured latency is folded in. -/
def pcie_sim_transfer_impl (s : Stats) (handleNull bufferNull : Bool)
    (size direction device_id : Nat) (active mutexOk : Bool)
    (latency : Nat) : Int × Stats :=
  if handleNull ∨ bufferNull ∨ size = 0 ∨ size > 1024 * 1024 then (-2, s)
  else if device_id ≥ 8 then (-2, s)
  else if ¬active then (-1, s)
  else if ¬mutexOk then (-4, s)
  else (0, windowsStatsUpdate s size latency)

/-! ### Timing models -/

/-- Kernel delay model `simulate_transfer_delay` (src/kernel/dma.c lines
93-108): `10µs + size/1024 µs + jitter` in unsigned int (u32) arithmetic,
where `jitter = get_random_u32_below(20)` is a parameter of the random
source.  The function takes no direction argument. -/
def simulate_transfer_delay_kernel (size jitter : Nat) : Nat :=
  w32 (10 + w32 (size / 1024) + jitter)

/-- The kernel transfer path's computed delay for a given direction: both the
TO_DEVICE and FROM_DEVICE branches of `pcie_sim_dma_transfer`
(src/kernel/dma.c lines 138-164) call `simulate_transfer_delay(req->size)`,
so the delay is independent of `direction`. -/
def kernelTransferDelay (size direction jitter : Nat) : Nat :=
  if direction = 0 then simulate_transfer_delay_kernel size jitter
  else simulate_transfer_delay_kernel size jitter

/-- Linux simulation base latency (src/sim/linux_sim.c lines 180-184):
`base_latency_per_mb * size_mb` with the size rounded up to whole MBs
(`size_mb` forced to at least 1). -/
def linux_base_latency (size : Nat) : Nat :=
  let size_mb0 := w64 (size + 1024 * 1024 - 1) / (1024 * 1024)
  let size_mb := if size_mb0 = 0 then 1 else size_mb0
  w64 (10000 * size_mb)

/-- Linux simulation latency model (src/sim/linux_sim.c lines 171-189):
the base latency, with FROM_DEVICE transfers scaled by `* 12 / 10`
(20% slower reads). -/
def linux_sim_latency (size direction : Nat) : Nat :=
  if direction = 1 then w64 (linux_base_latency size * 12) / 10
  else linux_base_latency size

/-- Windows simulation delay model `simulate_transfer_delay`
(src/sim/windows_sim.c lines 129-158): base `1 + rand()%10` µs plus
`size / (1000 + rand()%7000)` µs, u32 arithmetic; no direction argument. -/
def simulate_transfer_delay_windows (size r1 r2 : Nat) : Nat :=
  w32 (1 + r1 % 10 + w32 size / (1000 + r2 % 7000))

/-- The Windows transfer path's computed delay for a given direction:
`pcie_sim_transfer_impl` calls `simulate_transfer_delay((uint32_t)size)`
after either direction branch (src/sim/windows_sim.c line 256), so the delay
is independent of `direction`. -/
def windowsTransferDelay (size direction r1 r2 : Nat) : Nat :=
  if direction = 0 then simulate_transfer_delay_windows size r1 r2
  else simulate_transfer_delay_windows size r1 r2

/-! ### Buffer effects of FROM_DEVICE transfers -/

/-- `memset(buf, v, n)` on a byte buffer modelled as a list. -/
def c_memset (buf : List Nat) (v n : Nat) : List Nat :=
  List.replicate n v ++ buf.drop n

/-- `copy_to_user(dst, src, n)`: the first `n` bytes of `dst` are replaced by
the first `n` bytes of `src`. -/
def c_copy_to_user (dst src : List Nat) (n : Nat) : List Nat :=
  src.take n ++ dst.drop n

/-- Buffer effect of the kernel transfer (src/kernel/dma.c lines 138-164):
TO_DEVICE leaves the user buffer untouched; FROM_DEVICE fills a zeroed
kernel buffer (`kzalloc`) with the 0xAA test pattern (`memset`) and copies it
to the user buffer. -/
def pcie_sim_dma_transfer_buffer (userBuf : List Nat) (size direction : Nat) :
    List Nat :=
  if direction = 0 then userBuf
  else
    let kernel_buf := List.replicate size 0
    let kernel_buf := c_memset kernel_buf 0xAA size
    c_copy_to_user userBuf kernel_buf size

/-- Buffer effect of the Windows simulation transfer
(src/sim/windows_sim.c lines 241-253): TO_DEVICE only reads the buffer (a
checksum); FROM_DEVICE executes `memset(buffer, 0xAA, size)`. -/
def pcie_sim_transfer_impl_buffer (buf : List Nat) (size direction : Nat) :
    List Nat :=
  if direction = 0 then buf else c_memset buf 0xAA size

/-! ### Device open semantics -/

/-- Per-device slot state shared by both simulation backends: an active flag
and the device statistics. -/
structure DevSlot where
  active : Bool
  stats : Stats
deriving Repr, DecidableEq

instance : Inhabited DevSlot := ⟨⟨false, zeroStats⟩⟩

/-- Windows `pcie_sim_open_impl` (src/sim/windows_sim.c lines 161-195):
invalid id gives `PCIE_SIM_ERROR_PARAM`; an already-active device gives
`PCIE_SIM_ERROR_DEVICE` with no state change; otherwise the slot is marked
active (rolled back if the handle allocation fails). -/
def pcie_sim_open_impl (devs : List DevSlot) (device_id : Nat)
    (mallocFail : Bool) : Int × List DevSlot :=
  if device_id ≥ 8 then (-2, devs)
  else
    let d := devs.getD device_id default
    if d.active then (-1, devs)
    else
      let devs1 := devs.set device_id { d with active := true }
      if mallocFail then (-3, devs1.set device_id { d with active := false })
      else (0, devs1)

/-- Linux `pcie_sim_open_linux` (src/sim/linux_sim.c lines 114-147): invalid
id gives `PCIE_SIM_ERROR_PARAM`, allocation failure gives
`PCIE_SIM_ERROR_MEMORY`; otherwise the call always succeeds — the device
state (statistics included) is reset only if the slot was not already
active, so a second open shares the existing state untouched. -/
def pcie_sim_open_linux (devs : List DevSlot) (device_id : Nat)
    (mallocFail : Bool) : Int × List DevSlot :=
  if device_id ≥ 8 then (-2, devs)
  else if mallocFail then (-3, devs)
  else
    let d := devs.getD device_id default
    if d.active then (0, devs)
    else (0, devs.set device_id { active := true, stats := zeroStats })

/-! ### Descriptor ring buffer (src/kernel/ringbuffer.c) -/

/-- Ring descriptor `struct pcie_sim_ring_desc`
(src/kernel/common.h lines 88-95). -/
structure RingDesc where
  buffer_addr : Nat
  length : Nat
  flags : Nat
  timestamp : Nat
  status : Nat
deriving Repr, DecidableEq

instance : Inhabited RingDesc := ⟨⟨0, 0, 0, 0, 0⟩⟩

/-- `RING_SIZE` (src/kernel/ringbuffer.c line 31). -/
def RING_SIZE : Nat := 256

/-- Ring buffer state `struct pcie_sim_ring`
(src/kernel/common.h lines 98-111): descriptor storage, producer index
`head`, consumer index `tail`, live `count`, and the
submission/completion/overrun statistics counters. -/
structure Ring where
  descriptors : List RingDesc
  size : Nat
  head : Nat
  tail : Nat
  count : Nat
  submissions : Nat
  completions : Nat
  overruns : Nat
deriving Repr, DecidableEq

/-- Freshly initialized ring, `init_ring` (src/kernel/ringbuffer.c lines
36-70): 256 zeroed descriptors, indices and counters zero. -/
def init_ring : Ring :=
  { descriptors := List.replicate RING_SIZE default, size := RING_SIZE
    head := 0, tail := 0, count := 0
    submissions := 0, completions := 0, overruns := 0 }

/-- `pcie_sim_ring_submit` (src/kernel/ringbuffer.c lines 108-145): a full
ring (`count >= size`) increments `overruns` and returns `-ENOSPC` (-28);
otherwise the descriptor is written at `head` with the submission timestamp
`now` and status 0, `head` advances modulo `size`, `count` and `submissions`
increase. -/
def pcie_sim_ring_submit (r : Ring) (now buffer_addr length flags : Nat) :
    Int × Ring :=
  if r.count ≥ r.size then
    (-28, { r with overruns := w64 (r.overruns + 1) })
  else
    (0, { r with
            descriptors := r.descriptors.set r.head
              { buffer_addr := buffer_addr, length := length, flags := flags
                timestamp := now, status := 0 }
            head := (r.head + 1) % r.size
            count := r.count + 1
            submissions := w64 (r.submissions + 1) })

/-- `pcie_sim_ring_complete` (src/kernel/ringbuffer.c lines 150-192): an
empty ring returns `-ENODATA` (-61) with no mutation; otherwise the
descriptor at `tail` is returned (its `length`, and the latency
`now - timestamp` in u64 arithmetic), its status is overwritten, `tail`
advances modulo `size`, `count` decreases and `completions` increases. -/
def pcie_sim_ring_complete (r : Ring) (now status : Nat) :
    Int × Option (Nat × Nat) × Ring :=
  if r.count = 0 then (-61, none, r)
  else
    let desc := r.descriptors.getD r.tail default
    (0, some (desc.length, w64sub now desc.timestamp),
      { r with
          descriptors := r.descriptors.set r.tail { desc with status := status }
          tail := (r.tail + 1) % r.size
          count := r.count - 1
          completions := w64 (r.completions + 1) })

/-- One ring operation: a submission or a completion, carrying the clock
value `now` observed inside the call. -/
inductive RingOp where
  | submit (now buffer_addr length flags : Nat)
  | complete (now status : Nat)
deriving Repr, DecidableEq

/-- State transition of one ring operation. -/
def ringStep (r : Ring) (op : RingOp) : Ring :=
  match op with
  | .submit now a l f => (pcie_sim_ring_submit r now a l f).2
  | .complete now st => (pcie_sim_ring_complete r now st).2.2

/-- Observable result of one ring operation: the returned error code, and for
completions the `(length, latency)` pair reported to the caller. -/
def ringObs (r : Ring) (op : RingOp) : Int × Option (Nat × Nat) :=
  match op with
  | .submit now a l f => ((pcie_sim_ring_submit r now a l f).1, none)
  | .complete now st =>
      let (ret, res, _) := pcie_sim_ring_complete r now st
      (ret, res)

/-- Run a sequence of ring operations from a state. -/
def ringRunFrom (r : Ring) (ops : List RingOp) : Ring :=
  ops.foldl ringStep r

/-- Run a sequence of ring operations from the freshly initialized ring. -/
def ringRun (ops : List RingOp) : Ring := ringRunFrom init_ring ops

/-- Trace of observable results of a sequence of ring operations. -/
def ringTrace (r : Ring) : List RingOp → List (Int × Option (Nat × Nat))
  | [] => []
  | op :: ops => ringObs r op :: ringTrace (ringStep r op) ops

/-- Modelled from the spec (§4.1): the abstract descriptor queue — a bounded
FIFO list of at most 256 pending descriptors; `submit` appends (rejected
with the overflow code when full), `complete` removes the oldest pending
descriptor and reports its length and `now - submit_timestamp`. -/
def specQueueStep (q : List RingDesc) (op : RingOp) :
    List RingDesc × (Int × Option (Nat × Nat)) :=
  match op with
  | .submit now a l f =>
      if q.length ≥ RING_SIZE then (q, (-28, none))
      else (q ++ [{ buffer_addr := a, length := l, flags := f
                    timestamp := now, status := 0 }], (0, none))
  | .complete now _ =>
      match q with
      | [] => ([], (-61, none))
      | d :: rest => (rest, (0, some (d.length, w64sub now d.timestamp)))

/-- Trace of observable results of the abstract FIFO queue. -/
def specTrace (q : List RingDesc) : List RingOp → List (Int × Option (Nat × Nat))
  | [] => []
  | op :: ops =>
      (specQueueStep q op).2 :: specTrace (specQueueStep q op).1 ops

/-- The window of `count` descriptor slots starting at `tail`, wrapping
modulo 256, oldest first. -/
def absWin (descs : List RingDesc) (tail count : Nat) : List RingDesc :=
  (List.range count).map (fun i => descs.getD ((tail + i) % 256) default)

/-- Abstraction function: the live descriptors of a ring, oldest first — the
`count` slots starting at `tail`, wrapping modulo 256. -/
def absQueue (r : Ring) : List RingDesc :=
  absWin r.descriptors r.tail r.count

/-- Ring structural invariant: fixed size 256, storage length 256, indices in
range, live count bounded by capacity, and the producer index determined by
tail and count. -/
def RingInv (r : Ring) : Prop :=
  r.size = 256 ∧ r.descriptors.length = 256 ∧
  r.head < 256 ∧ r.tail < 256 ∧ r.count ≤ 256 ∧
  r.head = (r.tail + r.count) % 256

/-- The error-injection configuration fields of `struct pcie_sim_device`
(src/kernel/common.h lines 140-146) together with its statistics block. -/
structure KernelDev where
  stats : Stats
  error_scenario : Nat
  error_probability : Nat
  error_recovery_time_ms : Nat
deriving Repr, DecidableEq

/-- The kernel failure path's statistics effect: every error exit of
`pcie_sim_dma_transfer` (src/kernel/dma.c lines 182-187) calls
`update_transfer_stats(dev, req, 0, false)`; no other device field is
touched and the active error scenario is not consulted. -/
def kernelRecordFailure (d : KernelDev) (size lat : Nat) : KernelDev :=
  { d with stats := update_transfer_stats d.stats size lat false }

/-- 256 submissions (timestamps 0..255, 4096-byte descriptors) — enough to
fill the ring exactly. -/
def fullRingOps : List RingOp :=
  (List.range 256).map (fun i => RingOp.submit i 0 4096 0)

/-! ### Ring buffer lemmas -/

theorem getD_set (l : List α) (i j : Nat) (a d : α) :
    (l.set i a).getD j d =
      if i = j ∧ i < l.length then a else l.getD j d := by
  rw [List.getD_eq_getElem?_getD, List.getD_eq_getElem?_getD,
    List.getElem?_set]
  by_cases hij : i = j
  · subst hij
    by_cases hil : i < l.length
    · simp [hil]
    · simp [hil, List.getElem?_eq_none (Nat.le_of_not_lt hil)]
  · simp [hij]

theorem absWin_length (descs : List RingDesc) (tail count : Nat) :
    (absWin descs tail count).length = count := by
  simp [absWin]

theorem absQueue_length (r : Ring) : (absQueue r).length = r.count :=
  absWin_length _ _ _

/-- Writing the slot just past the window and widening the window by one
appends the written descriptor. -/
theorem absWin_snoc (descs : List RingDesc) (tail count : Nat)
    (d : RingDesc) (hlen : descs.length = 256) (hcount : count < 256) :
    absWin (descs.set ((tail + count) % 256) d) tail (count + 1) =
      absWin descs tail count ++ [d] := by
  unfold absWin
  rw [List.range_succ, List.map_append, List.map_cons, List.map_nil]
  congr 1
  · apply List.map_congr_left
    intro i hi
    rw [List.mem_range] at hi
    rw [getD_set]
    have hne : ¬ ((tail + count) % 256 = (tail + i) % 256) := by omega
    simp [hne]
  · rw [getD_set]
    have hlt : (tail + count) % 256 < descs.length := by
      rw [hlen]; exact Nat.mod_lt _ (by norm_num)
    simp [hlt]

/-- A nonempty window splits into the slot at `tail` followed by the window
starting one slot later. -/
theorem absWin_cons (descs : List RingDesc) (tail count : Nat)
    (htail : tail < 256) :
    absWin descs tail (count + 1) =
      descs.getD tail default :: absWin descs ((tail + 1) % 256) count := by
  unfold absWin
  rw [List.range_succ_eq_map, List.map_cons, List.map_map]
  congr 1
  · rw [Nat.add_zero, Nat.mod_eq_of_lt htail]
  · apply List.map_congr_left
    intro i hi
    simp only [Function.comp_apply, Nat.succ_eq_add_one, Nat.mod_add_mod]
    congr 1
    omega

/-- Writing the slot at `tail` does not change the window that starts one
slot past `tail`, provided the window does not wrap all the way around. -/
theorem absWin_set_tail (descs : List RingDesc) (tail count : Nat)
    (d : RingDesc) (hcount : count < 256) :
    absWin (descs.set tail d) ((tail + 1) % 256) count =
      absWin descs ((tail + 1) % 256) count := by
  unfold absWin
  apply List.map_congr_left
  intro i hi
  rw [List.mem_range] at hi
  rw [getD_set]
  have hne : ¬ (tail = (tail + 1 + i) % 256) := by omega
  simp [Nat.mod_add_mod, hne]

set_option maxRecDepth 4000 in
theorem ringInv_init : RingInv init_ring := by
  refine ⟨rfl, ?_, ?_, ?_, ?_, ?_⟩ <;> decide

theorem absQueue_init : absQueue init_ring = [] := by
  simp [absQueue, absWin, init_ring]

/-- Central simulation lemma: under the structural invariant, one concrete
ring operation produces the same observable result as the abstract FIFO
queue, the abstraction of the new state is the new abstract queue, and the
invariant is preserved. -/
theorem ringStep_sim (r : Ring) (op : RingOp) (h : RingInv r) :
    ringObs r op = (specQueueStep (absQueue r) op).2 ∧
    absQueue (ringStep r op) = (specQueueStep (absQueue r) op).1 ∧
    RingInv (ringStep r op) := by
  obtain ⟨hsz, hlen, hhead, htail, hcnt, hhd⟩ := h
  cases op with
  | submit now a l f =>
    by_cases hfull : r.count ≥ r.size
    · have hq : (absQueue r).length ≥ RING_SIZE := by
        rw [absQueue_length]
        simp only [RING_SIZE]
        omega
      have hstep : ringStep r (.submit now a l f) =
          { r with overruns := w64 (r.overruns + 1) } := by
        show (pcie_sim_ring_submit r now a l f).2 = _
        unfold pcie_sim_ring_submit
        rw [if_pos hfull]
      refine ⟨?_, ?_, ?_⟩
      · simp [ringObs, pcie_sim_ring_submit, hfull, specQueueStep, hq]
      · rw [hstep]
        simp only [specQueueStep, if_pos hq]
        rfl
      · rw [hstep]
        exact ⟨hsz, hlen, hhead, htail, hcnt, hhd⟩
    · have hlt : r.count < 256 := by omega
      have hq : ¬ (absQueue r).length ≥ RING_SIZE := by
        rw [absQueue_length]
        simp only [RING_SIZE]
        omega
      have hstep : ringStep r (.submit now a l f) =
          { r with
              descriptors := r.descriptors.set r.head
                { buffer_addr := a, length := l, flags := f
                  timestamp := now, status := 0 }
              head := (r.head + 1) % r.size
              count := r.count + 1
              submissions := w64 (r.submissions + 1) } := by
        show (pcie_sim_ring_submit r now a l f).2 = _
        unfold pcie_sim_ring_submit
        rw [if_neg hfull]
      refine ⟨?_, ?_, ?_⟩
      · simp [ringObs, pcie_sim_ring_submit, hfull, specQueueStep, hq]
      · rw [hstep]
        simp only [specQueueStep, if_neg hq]
        show absWin _ r.tail (r.count + 1) = _
        rw [hhd, absWin_snoc _ _ _ _ hlen hlt]
        rfl
      · rw [hstep]
        refine ⟨hsz, ?_, ?_, htail, ?_, ?_⟩
        · show (r.descriptors.set _ _).length = 256
          rw [List.length_set]
          exact hlen
        · show (r.head + 1) % r.size < 256
          rw [hsz]
          exact Nat.mod_lt _ (by norm_num)
        · show r.count + 1 ≤ 256
          omega
        · show (r.head + 1) % r.size = (r.tail + (r.count + 1)) % 256
          rw [hsz, hhd, Nat.mod_add_mod, Nat.add_assoc]
  | complete now st =>
    by_cases hzero : r.count = 0
    · have hq : absQueue r = [] := by
        simp [absQueue, absWin, hzero]
      have hstep : ringStep r (.complete now st) = r := by
        show (pcie_sim_ring_complete r now st).2.2 = _
        unfold pcie_sim_ring_complete
        rw [if_pos hzero]
      refine ⟨?_, ?_, ?_⟩
      · simp [ringObs, pcie_sim_ring_complete, hzero, specQueueStep, hq]
      · rw [hstep]
        simp [specQueueStep, hq]
      · rw [hstep]
        exact ⟨hsz, hlen, hhead, htail, hcnt, hhd⟩
    · obtain ⟨c, hc⟩ : ∃ c, r.count = c + 1 := ⟨r.count - 1, by omega⟩
      have hclt : c < 256 := by omega
      have habs : absQueue r =
          r.descriptors.getD r.tail default ::
            absWin r.descriptors ((r.tail + 1) % 256) c := by
        rw [absQueue, hc, absWin_cons _ _ _ htail]
      have hstep : ringStep r (.complete now st) =
          { r with
              descriptors := r.descriptors.set r.tail
                { r.descriptors.getD r.tail default with status := st }
              tail := (r.tail + 1) % r.size
              count := r.count - 1
              completions := w64 (r.completions + 1) } := by
        show (pcie_sim_ring_complete r now st).2.2 = _
        unfold pcie_sim_ring_complete
        rw [if_neg hzero]
      refine ⟨?_, ?_, ?_⟩
      · rw [habs]
        simp [ringObs, pcie_sim_ring_complete, hzero, specQueueStep]
      · rw [habs]
        simp only [specQueueStep, hstep]
        show absWin _ ((r.tail + 1) % r.size) (r.count - 1) = _
        rw [hsz, hc, Nat.add_sub_cancel, absWin_set_tail _ _ _ _ hclt]
      · rw [hstep]
        refine ⟨hsz, ?_, hhead, ?_, ?_, ?_⟩
        · show (r.descriptors.set _ _).length = 256
          rw [List.length_set]
          exact hlen
        · show (r.tail + 1) % r.size < 256
          rw [hsz]
          exact Nat.mod_lt _ (by norm_num)
        · show r.count - 1 ≤ 256
          omega
        · show r.head = ((r.tail + 1) % r.size + (r.count - 1)) % 256
          rw [hsz, Nat.mod_add_mod, hhd, hc]
          congr 1
          omega

/-- Trace-level refinement: from any invariant state, the concrete ring and
the abstract FIFO queue produce identical observable traces. -/
theorem ringTrace_eq_specTrace (ops : List RingOp) (r : Ring)
    (h : RingInv r) : ringTrace r ops = specTrace (absQueue r) ops := by
  induction ops generalizing r with
  | nil => rfl
  | cons op ops ih =>
    obtain ⟨h1, h2, h3⟩ := ringStep_sim r op h
    simp only [ringTrace, specTrace, h1, ← h2, ih _ h3]

/-- Every state reachable from the initialized ring satisfies the structural
invariant. -/
theorem ringRun_inv (ops : List RingOp) : RingInv (ringRun ops) := by
  suffices h : ∀ r, RingInv r → RingInv (ringRunFrom r ops) from
    h init_ring ringInv_init
  induction ops with
  | nil => intro r h; exact h
  | cons op ops ih =>
    intro r h
    exact ih _ (ringStep_sim r op h).2.2

/-! ### Statistics fold lemmas -/

theorem w64_eq_of_lt {x : Nat} (h : x < 2 ^ 64) : w64 x = x :=
  Nat.mod_eq_of_lt h

/-- The kernel average recurrence is unconditional: folding successful
transfers applies `(avg + latency) / 2` from whatever the average was. -/
theorem kernel_fold_avg (ts : List (Nat × Nat)) (s : Stats) :
    (ts.foldl (fun s p => update_transfer_stats s p.1 p.2 true) s).avg_latency_ns
      = (ts.map Prod.snd).foldl (fun a x => w64 (a + x) / 2)
          s.avg_latency_ns := by
  induction ts generalizing s with
  | nil => rfl
  | cons p ts ih =>
    rw [List.foldl_cons, List.map_cons, List.foldl_cons, ih]
    rfl

theorem linuxStatsUpdate_total_transfers (s : Stats) (size lat : Nat) :
    (linuxStatsUpdate s size lat).total_transfers =
      w64 (s.total_transfers + 1) := by
  unfold linuxStatsUpdate
  split <;> rfl

/-- Once at least one transfer has been recorded, the Linux aggregator's
average follows the `(avg + latency) / 2` recurrence (the first-sample branch
is never taken again while the transfer counter cannot wrap). -/
theorem linux_fold_avg (ts : List (Nat × Nat)) (s : Stats)
    (h1 : 1 ≤ s.total_transfers)
    (h2 : s.total_transfers + ts.length < 2 ^ 64) :
    (ts.foldl (fun s p => linuxStatsUpdate s p.1 p.2) s).avg_latency_ns
      = (ts.map Prod.snd).foldl (fun a x => w64 (a + x) / 2)
          s.avg_latency_ns := by
  induction ts generalizing s with
  | nil => rfl
  | cons p ts ih =>
    rw [List.foldl_cons, List.map_cons, List.foldl_cons]
    have htt : w64 (s.total_transfers + 1) = s.total_transfers + 1 :=
      w64_eq_of_lt (by simp at h2; omega)
    have hne : w64 (s.total_transfers + 1) ≠ 1 := by
      rw [htt]; omega
    have hupd : linuxStatsUpdate s p.1 p.2 =
        { total_transfers := w64 (s.total_transfers + 1)
          total_bytes := w64 (s.total_bytes + p.1)
          total_errors := s.total_errors
          avg_latency_ns := w64 (s.avg_latency_ns + p.2) / 2
          min_latency_ns :=
            if p.2 < s.min_latency_ns then p.2 else s.min_latency_ns
          max_latency_ns :=
            if p.2 > s.max_latency_ns then p.2 else s.max_latency_ns } := by
      unfold linuxStatsUpdate
      rw [if_neg hne]
    rw [hupd, ih]
    · show 1 ≤ w64 (s.total_transfers + 1)
      have hl : (p :: ts).length = ts.length + 1 := rfl
      simp only [w64] at *
      omega
    · show w64 (s.total_transfers + 1) + ts.length < 2 ^ 64
      have hl : (p :: ts).length = ts.length + 1 := rfl
      simp only [w64] at *
      omega

theorem windowsStatsUpdate_total_transfers (s : Stats) (size lat : Nat) :
    (windowsStatsUpdate s size lat).total_transfers =
      w64 (s.total_transfers + 1) := rfl

/-- The Windows aggregator's transfer counter and average follow the
cumulative-integer-mean recurrence while the counter cannot wrap. -/
theorem windows_fold_avg (ts : List (Nat × Nat)) (s : Stats)
    (h : s.total_transfers + ts.length < 2 ^ 64) :
    ((ts.foldl (fun s p => windowsStatsUpdate s p.1 p.2) s).total_transfers,
     (ts.foldl (fun s p => windowsStatsUpdate s p.1 p.2) s).avg_latency_ns)
      = (ts.map Prod.snd).foldl
          (fun (p : Nat × Nat) l =>
            let n := p.1 + 1
            (n, if n = 1 then l else w64 (w64 (p.2 * (n - 1)) + l) / n))
          (s.total_transfers, s.avg_latency_ns) := by
  induction ts generalizing s with
  | nil => rfl
  | cons p ts ih =>
    rw [List.foldl_cons, List.map_cons, List.foldl_cons]
    have htt : w64 (s.total_transfers + 1) = s.total_transfers + 1 :=
      w64_eq_of_lt (by simp at h; omega)
    have hupd : windowsStatsUpdate s p.1 p.2 =
        { total_transfers := s.total_transfers + 1
          total_bytes := w64 (s.total_bytes + p.1)
          total_errors := s.total_errors
          min_latency_ns :=
            if p.2 < s.min_latency_ns then p.2 else s.min_latency_ns
          max_latency_ns :=
            if p.2 > s.max_latency_ns then p.2 else s.max_latency_ns
          avg_latency_ns :=
            if s.total_transfers + 1 = 1 then p.2
            else w64 (w64 (s.avg_latency_ns * (s.total_transfers + 1 - 1))
              + p.2) / (s.total_transfers + 1) } := by
      unfold windowsStatsUpdate
      rw [htt]
    rw [hupd, ih]
    · simp at h ⊢
      omega

/-- Counter projection of one backend-stat fold: all three backends advance
`total_transfers` and `total_bytes` the same way and never touch
`total_errors` on success. -/
theorem kernel_fold_counters (ts : List (Nat × Nat)) (s : Stats) :
    ((ts.foldl (fun s p => update_transfer_stats s p.1 p.2 true) s).total_transfers,
     (ts.foldl (fun s p => update_transfer_stats s p.1 p.2 true) s).total_bytes,
     (ts.foldl (fun s p => update_transfer_stats s p.1 p.2 true) s).total_errors)
      = (ts.foldl (fun a _ => w64 (a + 1)) s.total_transfers,
         ts.foldl (fun a p => w64 (a + p.1)) s.total_bytes,
         s.total_errors) := by
  induction ts generalizing s with
  | nil => rfl
  | cons p ts ih =>
    rw [List.foldl_cons, List.foldl_cons, List.foldl_cons, ih]
    rfl

theorem linux_fold_counters (ts : List (Nat × Nat)) (s : Stats) :
    ((ts.foldl (fun s p => linuxStatsUpdate s p.1 p.2) s).total_transfers,
     (ts.foldl (fun s p => linuxStatsUpdate s p.1 p.2) s).total_bytes,
     (ts.foldl (fun s p => linuxStatsUpdate s p.1 p.2) s).total_errors)
      = (ts.foldl (fun a _ => w64 (a + 1)) s.total_transfers,
         ts.foldl (fun a p => w64 (a + p.1)) s.total_bytes,
         s.total_errors) := by
  induction ts generalizing s with
  | nil => rfl
  | cons p ts ih =>
    rw [List.foldl_cons, List.foldl_cons, List.foldl_cons, ih]
    have : (linuxStatsUpdate s p.1 p.2).total_transfers =
        w64 (s.total_transfers + 1) ∧
        (linuxStatsUpdate s p.1 p.2).total_bytes =
          w64 (s.total_bytes + p.1) ∧
        (linuxStatsUpdate s p.1 p.2).total_errors = s.total_errors := by
      unfold linuxStatsUpdate
      split <;> exact ⟨rfl, rfl, rfl⟩
    rw [this.1, this.2.1, this.2.2]

theorem windows_fold_counters (ts : List (Nat × Nat)) (s : Stats) :
    ((ts.foldl (fun s p => windowsStatsUpdate s p.1 p.2) s).total_transfers,
     (ts.foldl (fun s p => windowsStatsUpdate s p.1 p.2) s).total_bytes,
     (ts.foldl (fun s p => windowsStatsUpdate s p.1 p.2) s).total_errors)
      = (ts.foldl (fun a _ => w64 (a + 1)) s.total_transfers,
         ts.foldl (fun a p => w64 (a + p.1)) s.total_bytes,
         s.total_errors) := by
  induction ts generalizing s with
  | nil => rfl
  | cons p ts ih =>
    rw [List.foldl_cons, List.foldl_cons, List.foldl_cons, ih]
    rfl

/-- On small scaled inputs the `* 12 / 10` read mark-up is exactly 20%. -/
theorem linux_latency_scale : ∀ m : Nat, 1 ≤ m → m ≤ 4 →
    5 * (w64 (w64 (10000 * m) * 12) / 10) = 6 * w64 (10000 * m) := by
  intro m hm1 hm4
  interval_cases m <;> decide

/-- For valid sizes the Linux base latency is `10000 * size_mb` with
`1 ≤ size_mb ≤ 4`. -/
theorem linux_base_latency_form (size : Nat) (h1 : 1 ≤ size)
    (h2 : size ≤ 4 * 1024 * 1024) :
    ∃ m : Nat, 1 ≤ m ∧ m ≤ 4 ∧ linux_base_latency size = w64 (10000 * m) := by
  have hX : w64 (size + 1024 * 1024 - 1) = size + 1024 * 1024 - 1 :=
    Nat.mod_eq_of_lt (by omega)
  refine ⟨(size + 1024 * 1024 - 1) / (1024 * 1024), by omega, by omega, ?_⟩
  have hne : ¬ ((size + 1024 * 1024 - 1) / (1024 * 1024) = 0) := by omega
  simp only [linux_base_latency, hX, if_neg hne]

/-! ### Claim theorems -/

/-- C1 (counterexample): the claim that *every* backend satisfies the
spec's running-average policy fails on the kernel backend: after a single
successful transfer of 4096 bytes with measured latency 100 ns, the kernel
average is `(0 + 100) / 2 = 50`, not the 100 the policy requires. -/
theorem C1_counterexample :
    (runKernelStats [(4096, 100)]).avg_latency_ns = 50 ∧
    specRunningAvg [100] = 100 ∧
    (runKernelStats [(4096, 100)]).avg_latency_ns ≠ specRunningAvg [100] := by
  refine ⟨?_, ?_, ?_⟩ <;> decide

/-- C1 (amended): per-backend running-average behaviour, for any sequence of
fewer than 2^64 successful transfers on one freshly opened device: the Linux
simulation follows the spec policy exactly (first sample is the average,
then `avg = (avg + latency)/2`); the kernel backend applies
`avg = (avg + latency)/2` unconditionally from an initial average of 0, so
its first-sample average is `latency/2`; the Windows simulation keeps a
cumulative integer mean `avg = (avg*(n-1) + latency)/n`. -/
theorem C1_running_average_per_backend :
    (∀ ts : List (Nat × Nat), ts.length < 2 ^ 64 →
      (runLinuxStats ts).avg_latency_ns = specRunningAvg (ts.map Prod.snd)) ∧
    (∀ ts : List (Nat × Nat),
      (runKernelStats ts).avg_latency_ns = kernelAvgPolicy (ts.map Prod.snd)) ∧
    (∀ ts : List (Nat × Nat), ts.length < 2 ^ 64 →
      (runWindowsStats ts).avg_latency_ns = cumulativeAvg (ts.map Prod.snd)) := by
  refine ⟨?_, ?_, ?_⟩
  · intro ts hlen
    cases ts with
    | nil => rfl
    | cons p ts =>
      have hfirst : linuxStatsUpdate zeroStats p.1 p.2 =
          { total_transfers := 1, total_bytes := w64 p.1, total_errors := 0
            avg_latency_ns := p.2, min_latency_ns := p.2
            max_latency_ns := p.2 } := by
        unfold linuxStatsUpdate zeroStats
        norm_num [w64]
      show (List.foldl _ (linuxStatsUpdate zeroStats p.1 p.2) ts).avg_latency_ns = _
      rw [hfirst]
      rw [linux_fold_avg ts _ (by norm_num)
        (by simp at hlen ⊢; omega)]
      rfl
  · intro ts
    exact kernel_fold_avg ts zeroStats
  · intro ts hlen
    have h := windows_fold_avg ts windowsInitStats
      (by simpa [windowsInitStats, zeroStats] using hlen)
    exact congrArg Prod.snd h

/-- C1 (witness): the amended per-backend average law evaluated on the
concrete transfer sequence (4096,100), (4096,200), (4096,400). -/
theorem C1_running_average_witness :
    (runLinuxStats [(4096, 100), (4096, 200), (4096, 400)]).avg_latency_ns =
      specRunningAvg ([(4096, 100), (4096, 200), (4096, 400)].map Prod.snd) ∧
    (runKernelStats [(4096, 100), (4096, 200), (4096, 400)]).avg_latency_ns =
      kernelAvgPolicy ([(4096, 100), (4096, 200), (4096, 400)].map Prod.snd) ∧
    (runWindowsStats [(4096, 100), (4096, 200), (4096, 400)]).avg_latency_ns =
      cumulativeAvg ([(4096, 100), (4096, 200), (4096, 400)].map Prod.snd) :=
  ⟨C1_running_average_per_backend.1 _ (by decide),
   C1_running_average_per_backend.2.1 _,
   C1_running_average_per_backend.2.2 _ (by decide)⟩

/-- C2 (counterexample): identical transfer sequences with identical
per-transfer latencies do not give field-for-field identical statistics: a
single 4096-byte transfer with latency 100 ns leaves average 50 on the
kernel backend but 100 on the Linux simulation backend. -/
theorem C2_counterexample :
    (runKernelStats [(4096, 100)]).avg_latency_ns = 50 ∧
    (runLinuxStats [(4096, 100)]).avg_latency_ns = 100 ∧
    runKernelStats [(4096, 100)] ≠ runLinuxStats [(4096, 100)] := by
  refine ⟨?_, ?_, ?_⟩ <;> decide

/-- C2 (amended): for identical sequences of successful transfers (same
sizes and latencies) the three backends agree on `total_transfers`,
`total_bytes` and `total_errors`, but their average-latency fields follow
three different laws and differ pairwise already on the sequence
(4096,100), (4096,200), (4096,400): kernel 262, Linux 275, Windows 233. -/
theorem C2_backend_statistics :
    (∀ ts : List (Nat × Nat),
      ((runKernelStats ts).total_transfers, (runKernelStats ts).total_bytes,
        (runKernelStats ts).total_errors) =
      ((runLinuxStats ts).total_transfers, (runLinuxStats ts).total_bytes,
        (runLinuxStats ts).total_errors) ∧
      ((runLinuxStats ts).total_transfers, (runLinuxStats ts).total_bytes,
        (runLinuxStats ts).total_errors) =
      ((runWindowsStats ts).total_transfers, (runWindowsStats ts).total_bytes,
        (runWindowsStats ts).total_errors)) ∧
    ((runKernelStats [(4096, 100), (4096, 200), (4096, 400)]).avg_latency_ns = 262 ∧
     (runLinuxStats [(4096, 100), (4096, 200), (4096, 400)]).avg_latency_ns = 275 ∧
     (runWindowsStats [(4096, 100), (4096, 200), (4096, 400)]).avg_latency_ns = 233) := by
  constructor
  · intro ts
    have hk := kernel_fold_counters ts zeroStats
    have hl := linux_fold_counters ts zeroStats
    have hw := windows_fold_counters ts windowsInitStats
    simp only [show zeroStats.total_transfers = 0 from rfl,
      show zeroStats.total_bytes = 0 from rfl,
      show zeroStats.total_errors = 0 from rfl,
      show windowsInitStats.total_transfers = 0 from rfl,
      show windowsInitStats.total_bytes = 0 from rfl,
      show windowsInitStats.total_errors = 0 from rfl] at hk hl hw
    exact ⟨hk.trans hl.symm, hl.trans hw.symm⟩
  · refine ⟨?_, ?_, ?_⟩ <;> decide

theorem validate_transfer_request_values (b : Bool) (size dir : Nat) :
    validate_transfer_request b size dir = 0 ∨
    validate_transfer_request b size dir = -22 := by
  unfold validate_transfer_request
  split_ifs <;> simp

/-- C3 (counterexample): a 2 MiB `to_device` request with a valid buffer is
inside the claimed acceptance range `64 ≤ size ≤ 4·2^20`, yet the kernel
backend rejects it (`MAX_TRANSFER_SIZE` is 1 MiB) with `-EINVAL` — and,
contrary to the claim's frame condition, the rejection increments
`total_errors`. -/
theorem C3_counterexample :
    (pcie_sim_dma_transfer zeroStats false (2 * 1024 * 1024) 0 false false
      100).1 = -22 ∧
    (pcie_sim_dma_transfer zeroStats false (2 * 1024 * 1024) 0 false false
      100).2.total_errors = 1 ∧
    (pcie_sim_dma_transfer zeroStats false (2 * 1024 * 1024) 0 false false
      100).2 ≠ zeroStats := by
  refine ⟨?_, ?_, ?_⟩ <;> decide

/-- C3 (amended): actual request validation.  Kernel backend: a request is
accepted iff the buffer is non-null, `1 ≤ size ≤ 2^20` and `direction ≤ 1`;
an invalid request returns `-EINVAL` *and increments `total_errors`*,
leaving the other five statistics fields unchanged.  Linux simulation:
only a null handle/buffer, `size = 0` or an out-of-range device id are
rejected (with `PCIE_SIM_ERROR_PARAM` and untouched statistics).  Windows
simulation: `size = 0` or `size > 2^20` (or null handle/buffer) are rejected
with `PCIE_SIM_ERROR_PARAM` and untouched statistics.  Neither simulation
backend validates the direction. -/
theorem C3_request_validation :
    (∀ (b : Bool) (size dir : Nat),
      validate_transfer_request b size dir = 0 ↔
        (b = false ∧ 1 ≤ size ∧ size ≤ 1024 * 1024 ∧ dir ≤ 1)) ∧
    (∀ (s : Stats) (b : Bool) (size dir lat : Nat),
      validate_transfer_request b size dir ≠ 0 →
      pcie_sim_dma_transfer s b size dir false false lat =
        (-22, { s with total_errors := w64 (s.total_errors + 1) })) ∧
    (∀ (s : Stats) (hN bN : Bool) (size dir id lat : Nat),
      (hN = true ∨ bN = true ∨ size = 0 ∨ id ≥ 8) →
      pcie_sim_transfer_linux s hN bN size dir id lat = (-2, s)) ∧
    (∀ (s : Stats) (hN bN : Bool) (size dir id lat : Nat) (act mOk : Bool),
      (hN = true ∨ bN = true ∨ size = 0 ∨ size > 1024 * 1024) →
      pcie_sim_transfer_impl s hN bN size dir id act mOk lat = (-2, s)) := by
  refine ⟨?_, ?_, ?_, ?_⟩
  · intro b size dir
    unfold validate_transfer_request
    cases b <;> split_ifs <;> simp_all <;> omega
  · intro s b size dir lat hv
    rcases validate_transfer_request_values b size dir with h | h
    · exact absurd h hv
    · unfold pcie_sim_dma_transfer
      rw [h]
      norm_num
      rfl
  · intro s hN bN size dir id lat h
    unfold pcie_sim_transfer_linux
    rw [if_pos]
    simpa using h
  · intro s hN bN size dir id lat act mOk h
    unfold pcie_sim_transfer_impl
    rw [if_pos]
    simpa using h

/-- C3 (witness): the amended validation law at concrete inputs — a
31-byte request is accepted by the kernel validator (the claim's 64-byte
minimum does not exist); a 2 MiB request is rejected by the kernel with
`total_errors` bumped; a zero-size request is rejected by both simulation
backends without touching statistics. -/
theorem C3_request_validation_witness :
    (validate_transfer_request false 31 0 = 0 ↔
      (false = false ∧ 1 ≤ 31 ∧ 31 ≤ 1024 * 1024 ∧ 0 ≤ 1)) ∧
    pcie_sim_dma_transfer zeroStats false (2 * 1024 * 1024) 0 false false 77 =
      (-22, { zeroStats with total_errors := w64 (zeroStats.total_errors + 1) }) ∧
    pcie_sim_transfer_linux zeroStats false false 0 0 3 77 = (-2, zeroStats) ∧
    pcie_sim_transfer_impl zeroStats false false 0 0 3 true true 77 =
      (-2, zeroStats) :=
  ⟨C3_request_validation.1 false 31 0,
   C3_request_validation.2.1 zeroStats false (2 * 1024 * 1024) 0 77 (by decide),
   C3_request_validation.2.2.1 zeroStats false false 0 0 3 77 (by decide),
   C3_request_validation.2.2.2 zeroStats false false 0 0 3 77 true true
     (by decide)⟩

/-- C4 (counterexample): the 20% read mark-up does not exist in the kernel
timing model: at size 4096 and zero jitter the computed delay is 14 µs for
both directions, whereas the claim requires the `from_device` delay to be
`14 * 12 / 10 = 16` µs. -/
theorem C4_counterexample :
    kernelTransferDelay 4096 1 0 = 14 ∧
    kernelTransferDelay 4096 0 0 = 14 ∧
    kernelTransferDelay 4096 1 0 ≠
      kernelTransferDelay 4096 0 0 * 12 / 10 := by
  refine ⟨?_, ?_, ?_⟩ <;> decide

/-- C4 (amended): only the Linux simulation backend's timing model applies
the direction asymmetry — there, for every valid size, the pre-jitter
`from_device` latency is exactly 20% above the `to_device` latency
(`5·read = 6·write`); the kernel and Windows timing models are independent
of the direction. -/
theorem C4_direction_asymmetry :
    (∀ size : Nat, 1 ≤ size → size ≤ 4 * 1024 * 1024 →
      5 * linux_sim_latency size 1 = 6 * linux_sim_latency size 0) ∧
    (∀ size jitter d d' : Nat,
      kernelTransferDelay size d jitter = kernelTransferDelay size d' jitter) ∧
    (∀ size r1 r2 d d' : Nat,
      windowsTransferDelay size d r1 r2 = windowsTransferDelay size d' r1 r2) := by
  refine ⟨?_, ?_, ?_⟩
  · intro size h1 h2
    obtain ⟨m, hm1, hm4, hB⟩ := linux_base_latency_form size h1 h2
    have e1 : linux_sim_latency size 1 =
        w64 (linux_base_latency size * 12) / 10 := by
      simp [linux_sim_latency]
    have e0 : linux_sim_latency size 0 = linux_base_latency size := by
      simp [linux_sim_latency]
    rw [e1, e0, hB]
    exact linux_latency_scale m hm1 hm4
  · intro size jitter d d'
    unfold kernelTransferDelay
    split_ifs <;> rfl
  · intro size r1 r2 d d'
    unfold windowsTransferDelay
    split_ifs <;> rfl

/-- C4 (witness): the amended direction law at concrete inputs — at size
4096 the Linux model gives 12000 ns for reads and 10000 ns for writes
(exactly 20% more), and the kernel and Windows models give equal delays for
both directions. -/
theorem C4_direction_asymmetry_witness :
    5 * linux_sim_latency 4096 1 = 6 * linux_sim_latency 4096 0 ∧
    kernelTransferDelay 4096 1 7 = kernelTransferDelay 4096 0 7 ∧
    windowsTransferDelay 4096 1 3 5 = windowsTransferDelay 4096 0 3 5 :=
  ⟨C4_direction_asymmetry.1 4096 (by decide) (by decide),
   C4_direction_asymmetry.2.1 4096 7 1 0,
   C4_direction_asymmetry.2.2 4096 3 5 1 0⟩

set_option maxRecDepth 100000 in
set_option maxHeartbeats 2000000 in
/-- C5 (confirmed): starting from a freshly initialized ring, 256
submissions all succeed (each observable result is success with no payload);
the 257th submission returns `-ENOSPC` leaving the ring contents
(descriptors) and the indices (head, tail, count) unchanged; and completing
a ring holding zero entries returns `-ENODATA` with the ring unchanged. -/
theorem C5_ring_overflow_underflow :
    ringTrace init_ring fullRingOps =
      List.replicate 256 ((0 : Int), (none : Option (Nat × Nat))) ∧
    (pcie_sim_ring_submit (ringRun fullRingOps) 999 0 4096 0).1 = -28 ∧
    ((pcie_sim_ring_submit (ringRun fullRingOps) 999 0 4096 0).2.descriptors,
     (pcie_sim_ring_submit (ringRun fullRingOps) 999 0 4096 0).2.head,
     (pcie_sim_ring_submit (ringRun fullRingOps) 999 0 4096 0).2.tail,
     (pcie_sim_ring_submit (ringRun fullRingOps) 999 0 4096 0).2.count) =
    ((ringRun fullRingOps).descriptors, (ringRun fullRingOps).head,
     (ringRun fullRingOps).tail, (ringRun fullRingOps).count) ∧
    (pcie_sim_ring_complete init_ring 5 0).1 = -61 ∧
    (pcie_sim_ring_complete init_ring 5 0).2.2 = init_ring := by
  refine ⟨by decide, by decide, by decide, by decide, by decide⟩

/-- C6 (confirmed): the concrete ring and the abstract FIFO queue produce
identical observable traces for every operation sequence — each successful
completion reports the length of the oldest pending submission and the
latency `now - submit_timestamp` (u64 subtraction, which equals natural
subtraction whenever the clock is monotone). -/
theorem C6_fifo_completion :
    (∀ ops : List RingOp, ringTrace init_ring ops = specTrace [] ops) ∧
    (∀ now ts : Nat, ts ≤ now → now < 2 ^ 64 → w64sub now ts = now - ts) := by
  constructor
  · intro ops
    have h := ringTrace_eq_specTrace ops init_ring ringInv_init
    rwa [absQueue_init] at h
  · intro now ts h1 h2
    exact w64sub_eq_sub now ts h1 h2

/-- C6 (witness): the FIFO trace law on a concrete sequence — two
submissions then two completions return the lengths in submission order with
latencies `now - submit_timestamp`. -/
theorem C6_fifo_completion_witness :
    ringTrace init_ring
      [RingOp.submit 10 0 4096 0, RingOp.submit 11 0 512 0,
       RingOp.complete 25 1, RingOp.complete 30 1] =
    specTrace []
      [RingOp.submit 10 0 4096 0, RingOp.submit 11 0 512 0,
       RingOp.complete 25 1, RingOp.complete 30 1] ∧
    w64sub 25 10 = 15 :=
  ⟨C6_fifo_completion.1 _,
   (C6_fifo_completion.2 25 10 (by decide) (by decide)).trans (by decide)⟩

/-- C7 (counterexample): the statistics structure has no per-scenario error
counter, and the kernel failure-path update neither depends on the active
scenario nor touches anything but `total_errors`: with the same starting
statistics, a failed transfer under scenario 1 (timeout) and under scenario
2 (corruption) produces identical statistics, equal to the old statistics
with only `total_errors` incremented. -/
theorem C7_counterexample :
    (update_transfer_stats ⟨5, 2048, 0, 100, 50, 200⟩ 4096 0 false =
      { total_transfers := 5, total_bytes := 2048, total_errors := 1
        avg_latency_ns := 100, min_latency_ns := 50, max_latency_ns := 200 }) ∧
    (kernelRecordFailure ⟨⟨5, 2048, 0, 100, 50, 200⟩, 1, 100, 100⟩ 4096 0).stats =
      (kernelRecordFailure ⟨⟨5, 2048, 0, 100, 50, 200⟩, 2, 100, 100⟩ 4096 0).stats := by
  constructor <;> decide

/-- C7 (amended): for every failed transfer the kernel statistics update
increments only `total_errors`; there is no scenario-specific error counter
in `struct pcie_sim_stats` and the update is independent of the active
scenario; `total_transfers`, `total_bytes` and the min/max/avg latency
fields are left exactly as they were. -/
theorem C7_failure_frame :
    ∀ (d : KernelDev) (size lat : Nat),
      (kernelRecordFailure d size lat).stats.total_errors =
        w64 (d.stats.total_errors + 1) ∧
      (kernelRecordFailure d size lat).stats.total_transfers =
        d.stats.total_transfers ∧
      (kernelRecordFailure d size lat).stats.total_bytes =
        d.stats.total_bytes ∧
      (kernelRecordFailure d size lat).stats.avg_latency_ns =
        d.stats.avg_latency_ns ∧
      (kernelRecordFailure d size lat).stats.min_latency_ns =
        d.stats.min_latency_ns ∧
      (kernelRecordFailure d size lat).stats.max_latency_ns =
        d.stats.max_latency_ns ∧
      (kernelRecordFailure d size lat).error_scenario = d.error_scenario ∧
      (∀ d' : KernelDev, d'.stats = d.stats →
        (kernelRecordFailure d' size lat).stats =
          (kernelRecordFailure d size lat).stats) := by
  intro d size lat
  refine ⟨rfl, rfl, rfl, rfl, rfl, rfl, rfl, ?_⟩
  intro d' h
  unfold kernelRecordFailure
  rw [h]

/-- C7 (witness): the failure frame law evaluated at a concrete device with
the timeout scenario active and a device differing only in its scenario. -/
theorem C7_failure_frame_witness :
    (kernelRecordFailure ⟨⟨7, 512, 3, 90, 40, 150⟩, 1, 100, 100⟩ 64 0).stats =
      (kernelRecordFailure ⟨⟨7, 512, 3, 90, 40, 150⟩, 3, 500, 20⟩ 64 0).stats :=
  (C7_failure_frame ⟨⟨7, 512, 3, 90, 40, 150⟩, 3, 500, 20⟩ 64 0).2.2.2.2.2.2.2
    ⟨⟨7, 512, 3, 90, 40, 150⟩, 1, 100, 100⟩ rfl

set_option maxRecDepth 100000 in
set_option maxHeartbeats 2000000 in
/-- C8 (counterexample): a submission against a full ring is rejected but
does *not* leave the ring struct unmodified — the `overruns` statistics
counter of `struct pcie_sim_ring` is incremented: after 256 submissions the
257th returns an error yet changes the ring state. -/
theorem C8_counterexample :
    (ringRun fullRingOps).count = 256 ∧
    (pcie_sim_ring_submit (ringRun fullRingOps) 999 0 64 0).2.overruns =
      (ringRun fullRingOps).overruns + 1 ∧
    (pcie_sim_ring_submit (ringRun fullRingOps) 999 0 64 0).2 ≠
      ringRun fullRingOps := by
  have hover : (pcie_sim_ring_submit (ringRun fullRingOps) 999 0 64 0).2.overruns =
      (ringRun fullRingOps).overruns + 1 := by decide
  refine ⟨by decide, hover, ?_⟩
  intro heq
  have hsame := congrArg Ring.overruns heq
  omega

/-- C8 (amended): for every reachable ring state, `count ≤ 256` and the
head and tail indices stay below 256; a submission when `count = 256` is
rejected, leaving the descriptors, head, tail and count unchanged but
incrementing the `overruns` counter; a completion when `count = 0` is
rejected leaving the ring entirely unchanged. -/
theorem C8_ring_invariant :
    ∀ ops : List RingOp,
      (ringRun ops).count ≤ 256 ∧
      (ringRun ops).head < 256 ∧
      (ringRun ops).tail < 256 ∧
      (∀ now a l f : Nat, (ringRun ops).count = 256 →
        (pcie_sim_ring_submit (ringRun ops) now a l f).1 = -28 ∧
        (pcie_sim_ring_submit (ringRun ops) now a l f).2.descriptors =
          (ringRun ops).descriptors ∧
        (pcie_sim_ring_submit (ringRun ops) now a l f).2.head =
          (ringRun ops).head ∧
        (pcie_sim_ring_submit (ringRun ops) now a l f).2.tail =
          (ringRun ops).tail ∧
        (pcie_sim_ring_submit (ringRun ops) now a l f).2.count =
          (ringRun ops).count ∧
        (pcie_sim_ring_submit (ringRun ops) now a l f).2.overruns =
          w64 ((ringRun ops).overruns + 1)) ∧
      (∀ now st : Nat, (ringRun ops).count = 0 →
        (pcie_sim_ring_complete (ringRun ops) now st).1 = -61 ∧
        (pcie_sim_ring_complete (ringRun ops) now st).2.2 = ringRun ops) := by
  intro ops
  obtain ⟨hsz, hlen, hhead, htail, hcnt, hhd⟩ := ringRun_inv ops
  refine ⟨hcnt, hhead, htail, ?_, ?_⟩
  · intro now a l f hfull
    have hge : (ringRun ops).count ≥ (ringRun ops).size := by omega
    have hstep : pcie_sim_ring_submit (ringRun ops) now a l f =
        (-28, { ringRun ops with
                  overruns := w64 ((ringRun ops).overruns + 1) }) := by
      unfold pcie_sim_ring_submit
      rw [if_pos hge]
    rw [hstep]
    exact ⟨rfl, rfl, rfl, rfl, rfl, rfl⟩
  · intro now st hzero
    have hstep : pcie_sim_ring_complete (ringRun ops) now st =
        (-61, none, ringRun ops) := by
      unfold pcie_sim_ring_complete
      rw [if_pos hzero]
    rw [hstep]
    exact ⟨rfl, rfl⟩

set_option maxRecDepth 100000 in
set_option maxHeartbeats 2000000 in
/-- C8 (witness): the amended invariant law evaluated on concrete runs —
the empty run (count 0, completion rejected without change) and the
256-submission run (count 256, submission rejected with only `overruns`
changing). -/
theorem C8_ring_invariant_witness :
    (ringRun []).count = 0 ∧
    (pcie_sim_ring_complete (ringRun []) 42 0).1 = -61 ∧
    (pcie_sim_ring_complete (ringRun []) 42 0).2.2 = ringRun [] ∧
    (ringRun fullRingOps).count = 256 ∧
    (pcie_sim_ring_submit (ringRun fullRingOps) 300 0 64 0).1 = -28 ∧
    (pcie_sim_ring_submit (ringRun fullRingOps) 300 0 64 0).2.overruns =
      w64 ((ringRun fullRingOps).overruns + 1) :=
  ⟨by decide,
   ((C8_ring_invariant []).2.2.2.2 42 0 (by decide)).1,
   ((C8_ring_invariant []).2.2.2.2 42 0 (by decide)).2,
   by decide,
   ((C8_ring_invariant fullRingOps).2.2.2.1 300 0 64 0 (by decide)).1,
   ((C8_ring_invariant fullRingOps).2.2.2.1 300 0 64 0 (by decide)).2.2.2.2.2⟩

/-- C9 (confirmed): a successful `from_device` transfer overwrites the whole
caller buffer with the 0xAA test pattern, both on the kernel DMA path
(memset of the kernel bounce buffer followed by copy_to_user) and on the
Windows simulation backend (direct memset of the caller buffer). -/
theorem C9_from_device_pattern :
    ∀ (buf : List Nat) (size : Nat), buf.length = size →
      pcie_sim_dma_transfer_buffer buf size 1 = List.replicate size 0xAA ∧
      pcie_sim_transfer_impl_buffer buf size 1 = List.replicate size 0xAA := by
  intro buf size h
  constructor
  · unfold pcie_sim_dma_transfer_buffer c_memset c_copy_to_user
    rw [if_neg (by norm_num)]
    show List.take size (List.replicate size 0xAA ++
        List.drop size (List.replicate size 0)) ++ List.drop size buf =
      List.replicate size 0xAA
    rw [List.drop_replicate, Nat.sub_self, List.replicate_zero,
      List.append_nil, List.take_replicate, Nat.min_self, ← h,
      List.drop_length, List.append_nil]
  · unfold pcie_sim_transfer_impl_buffer c_memset
    rw [if_neg (by norm_num), ← h, List.drop_length, List.append_nil]

/-- C9 (witness): the 0xAA overwrite on a concrete 3-byte buffer. -/
theorem C9_from_device_pattern_witness :
    pcie_sim_dma_transfer_buffer [1, 2, 3] 3 1 = List.replicate 3 0xAA ∧
    pcie_sim_transfer_impl_buffer [1, 2, 3] 3 1 = List.replicate 3 0xAA :=
  C9_from_device_pattern [1, 2, 3] 3 rfl

/-- C10 (confirmed): opening an already-active device id behaves
differently across the two simulation backends — the Windows backend
returns `PCIE_SIM_ERROR_DEVICE` and leaves the device table unchanged,
while the Linux backend succeeds and shares the existing device state
without resetting its statistics (the device table is unchanged, so the
statistics remain whatever they were). -/
theorem C10_double_open :
    ∀ (devs : List DevSlot) (id : Nat) (s : Stats),
      id < 8 → devs.getD id default = ⟨true, s⟩ →
      pcie_sim_open_impl devs id false = (-1, devs) ∧
      pcie_sim_open_linux devs id false = (0, devs) := by
  intro devs id s hid hslot
  have hnot : ¬ (id ≥ 8) := by omega
  constructor
  · unfold pcie_sim_open_impl
    rw [if_neg hnot, hslot]
    rfl
  · unfold pcie_sim_open_linux
    rw [if_neg hnot, if_neg (by norm_num), hslot]
    rfl

/-- C10 (witness): the double-open divergence on a concrete 8-slot device
table whose slot 2 is active with nonzero statistics. -/
theorem C10_double_open_witness :
    pcie_sim_open_impl
      [default, default, ⟨true, ⟨3, 100, 0, 10, 5, 20⟩⟩, default,
       default, default, default, default] 2 false =
      (-1, [default, default, ⟨true, ⟨3, 100, 0, 10, 5, 20⟩⟩, default,
            default, default, default, default]) ∧
    pcie_sim_open_linux
      [default, default, ⟨true, ⟨3, 100, 0, 10, 5, 20⟩⟩, default,
       default, default, default, default] 2 false =
      (0, [default, default, ⟨true, ⟨3, 100, 0, 10, 5, 20⟩⟩, default,
           default, default, default, default]) :=
  C10_double_open _ 2 ⟨3, 100, 0, 10, 5, 20⟩ (by decide) rfl

end PcieSim
